import Mathlib

set_option autoImplicit false

/-!
Shallow embedding of the GitLab import client
(`src/packages/import/src/importers/gitlab/client.ts`, its duplicate in
`src/unnamed/part_001`, and the importer/aggregator in `src/unnamed/part_000`).

Modelling conventions:
* HTTP traffic is modelled by passing each endpoint response (status code plus
  already-decoded, endpoint-typed body) as an explicit argument; a thrown JS
  `Error` becomes `Except.error` with an inductive error value mirroring the
  distinct `throw` sites.
* JS object literals used as lookup tables become association lists consulted
  with `List.lookup`; lookups see only the table entries themselves (the
  prototype chain of JS property access is outside the model).
* JS strings are Lean `String`s; the JS `String.prototype.includes` and
  single-occurrence `String.prototype.replace` are modelled character-list
  recursively by `containsList` / `replaceFirstList`.
* `Date` construction is not modelled: timestamps stay the strings the API
  returned.
-/

namespace GitlabImport

/-- Response of one HTTP call: its status code and its decoded JSON body,
typed for the endpoint being modelled. -/
structure HttpResp (α : Type) where
  status : Nat
  body : α

/-- Errors thrown by the authenticated request executor `gitlabClient`:
status 401 throws "Invalid API key", status 404 throws "Not found", any other
non-200 status throws "Unexpected status code: <code>". -/
inductive ClientError where
  | invalidApiKey
  | notFound
  | unexpectedStatus (code : Nat)
deriving DecidableEq

/-- Embeds the response classification of `gitlabClient` (client.ts lines
20-32): 401 and 404 and any other non-200 status throw; only a 200 response
returns the decoded body. -/
def gitlabClient {α : Type} (status : Nat) (body : α) : Except ClientError α :=
  if status = 401 then Except.error ClientError.invalidApiKey
  else if status = 404 then Except.error ClientError.notFound
  else if status ≠ 200 then Except.error (ClientError.unexpectedStatus status)
  else Except.ok body

/-- Entry of the project-search response consulted by `getGitlabProjectId`. -/
structure GitlabProject where
  id : Nat
  path : String
deriving DecidableEq

/-- Errors surfaced by `getGitlabProjectId`; every branch of the JS code ends
in the `.catch` wrapper prefixing "Failed to get project: ".
`wrappedTypeError` is the TypeError raised by destructuring
`const { id } = projects.find(...)` when `find` returns `undefined`;
`wrappedProjectNotFound` is the explicit `Project <name> not found` throw,
reachable only when a matching entry has a falsy (zero) id. -/
inductive ResolveError where
  | wrappedClient (e : ClientError)
  | wrappedTypeError
  | wrappedProjectNotFound (name : String)
deriving DecidableEq

/-- Embeds `getGitlabProjectId` (client.ts lines 37-52): classify the search
response, take the first entry whose `path` equals the requested name exactly,
and fail otherwise. -/
def getGitlabProjectId (searchResp : HttpResp (List GitlabProject))
    (projectName : String) : Except ResolveError Nat :=
  match gitlabClient searchResp.status searchResp.body with
  | Except.error e => Except.error (ResolveError.wrappedClient e)
  | Except.ok projects =>
    match projects.find? (fun p => p.path == projectName) with
    | none => Except.error ResolveError.wrappedTypeError
    | some p =>
      if p.id = 0 then Except.error (ResolveError.wrappedProjectNotFound projectName)
      else Except.ok p.id

/-- Assignee record of an issue (shape `Assignee` in GitlabImporter.ts). -/
structure Assignee where
  state : String
  id : Nat
  name : String
  web_url : String
  avatar_url : String
  username : String
deriving DecidableEq

/-- Author record attached to a note. -/
structure Author where
  state : String
  id : Nat
  web_url : String
  name : String
  avatar_url : String
  username : String
deriving DecidableEq

/-- Issue as projected from the issue-list response (shape `GITLAB_ISSUE`
without its `comments` field; the projection in client.ts lines 58-70 keeps
exactly these fields). -/
structure RawIssue where
  id : Nat
  iid : Nat
  title : String
  description : String
  labels : List String
  assignees : List Assignee
  due_date : Option String
  severity : String
  web_url : String
  created_at : String
  state : String
deriving DecidableEq

/-- Note as returned by the notes endpoint (shape `Note` in
GitlabImporter.ts, with its `author` typed). -/
structure RawNote where
  id : Nat
  system : Bool
  body : String
  attachment : String
  author : Author
  created_at : String
  updated_at : String
deriving DecidableEq

/-- Imported comment `{id, body, userId, createdAt}` built from a note. -/
structure Comment where
  id : Nat
  body : String
  userId : Nat
  createdAt : String
deriving DecidableEq

/-- Issue after its `comments` field has been filled in by the fetch loop. -/
structure FetchedIssue where
  id : Nat
  iid : Nat
  title : String
  description : String
  labels : List String
  assignees : List Assignee
  due_date : Option String
  severity : String
  web_url : String
  created_at : String
  state : String
  comments : List Comment
deriving DecidableEq

/-- Decides whether `pat` occurs as a contiguous substring of `s`
(JS `String.prototype.includes`, on character lists). -/
def containsList (pat : List Char) : List Char → Bool
  | [] => pat.isPrefixOf ([] : List Char)
  | c :: rest => pat.isPrefixOf (c :: rest) || containsList pat rest

/-- String wrapper of `containsList`: `strContains s pat` is JS
`s.includes(pat)`. -/
def strContains (s pat : String) : Bool :=
  containsList pat.data s.data

/-- Replaces the first occurrence of `pat` by `rep` and leaves the rest of the
list unchanged; if `pat` never occurs the list is returned unchanged
(JS `String.prototype.replace` with a string pattern, on character lists). -/
def replaceFirstList (pat rep : List Char) : List Char → List Char
  | [] => if pat.isPrefixOf ([] : List Char) then rep else []
  | c :: rest =>
    if pat.isPrefixOf (c :: rest) then rep ++ (c :: rest).drop pat.length
    else c :: replaceFirstList pat rep rest

/-- String wrapper of `replaceFirstList`: `replaceFirst s pat rep` is JS
`s.replace(pat, rep)`. -/
def replaceFirst (s pat rep : String) : String :=
  String.mk (replaceFirstList pat.data rep.data s.data)

/-- Base of the absolute upload URL hard-coded in client.ts line 88. -/
def uploadsBase : String := "https://git.niice.nl/niicedigitalmarketing/"

/-- Embeds the comment-body rewrite of client.ts lines 86-89: the first
upload-relative path `/uploads/` is rewritten to the absolute project-scoped
URL. -/
def rewriteBody (projectName body : String) : String :=
  replaceFirst body "/uploads/" (uploadsBase ++ projectName ++ "/uploads/")

/-- Embeds the comment construction of client.ts lines 85-96. -/
def mkComment (projectName : String) (note : RawNote) : Comment :=
  { id := note.id
    body := rewriteBody projectName note.body
    userId := note.author.id
    createdAt := note.created_at }

/-- Error surfaced by `getGitlabIssuesFromRepo`; both `.catch` wrappers in
client.ts lines 72-74 and 98-100 prefix "Failed to get issues: ". -/
inductive FetchError where
  | failedToGetIssues (e : ClientError)
deriving DecidableEq

/-- Attaches the fetched comments to a projected issue
(the `issue.comments = ...` assignment in client.ts line 78). -/
def withComments (i : RawIssue) (cs : List Comment) : FetchedIssue :=
  { id := i.id, iid := i.iid, title := i.title, description := i.description
    labels := i.labels, assignees := i.assignees, due_date := i.due_date
    severity := i.severity, web_url := i.web_url, created_at := i.created_at
    state := i.state, comments := cs }

/-- Embeds the sequential per-issue comment fetch of client.ts lines 77-101:
for each issue in order, classify its notes response, drop system notes, build
comments, and abort on the first failure. `notesResp` gives the notes-endpoint
response for each issue `iid`. -/
def fetchComments (projectName : String) (notesResp : Nat → HttpResp (List RawNote)) :
    List RawIssue → Except FetchError (List FetchedIssue)
  | [] => Except.ok []
  | i :: rest =>
    match gitlabClient (notesResp i.iid).status (notesResp i.iid).body with
    | Except.error e => Except.error (FetchError.failedToGetIssues e)
    | Except.ok notes =>
      match fetchComments projectName notesResp rest with
      | Except.error e => Except.error e
      | Except.ok others =>
        Except.ok
          (withComments i ((notes.filter (fun n => !n.system)).map (mkComment projectName))
            :: others)

/-- Embeds `getGitlabIssuesFromRepo` (client.ts lines 55-104): classify the
issue-list response, project the issues, then fetch each issue's comments
sequentially, failing fast. -/
def getGitlabIssuesFromRepo (projectName : String) (issuesResp : HttpResp (List RawIssue))
    (notesResp : Nat → HttpResp (List RawNote)) : Except FetchError (List FetchedIssue) :=
  match gitlabClient issuesResp.status issuesResp.body with
  | Except.error e => Except.error (FetchError.failedToGetIssues e)
  | Except.ok issueList => fetchComments projectName notesResp issueList

/-- Status table built in `mapStatusFromLabels` of client.ts lines 111-122,
entries in insertion order. -/
def statusTable : List (String × String) :=
  [("Status::On hold", "Backlog"),
   ("Needs attention", "Backlog"),
   ("Status::Review", "Review"),
   ("Status::Estimate", "Estimate"),
   ("Status::Refinement", "Backlog"),
   ("Status::Ready for Release", "Done"),
   ("Status::Approved Internally", "Done"),
   ("Status::In progress", "In Progress"),
   ("Status::To-do", "Todo")]

/-- One step of the label scan in `mapStatusFromLabels`: a label found in the
table overwrites the running status, any other label leaves it unchanged. -/
def statusStep (table : List (String × String)) (newStatus label : String) : String :=
  match table.lookup label with
  | some s => s
  | none => newStatus

/-- Embeds `mapStatusFromLabels` of client.ts lines 107-132: scan all labels
in order starting from "backlog"; because the `forEach` callback's `return`
only ends the current iteration, every matching label overwrites the status
and the last match wins. -/
def mapStatusFromLabels (labels : List String) : String :=
  labels.foldl (statusStep statusTable) "backlog"

/-- Status table of the duplicate client module `src/unnamed/part_001`
(lines 114-121), entries in insertion order; it lacks the "Needs attention"
row and maps "Status::On hold", "Status::Refinement" and
"Status::Approved Internally" differently. -/
def statusTableDup : List (String × String) :=
  [("Status::On hold", "Todo"),
   ("Status::Review", "Review"),
   ("Status::Estimate", "Estimate"),
   ("Status::Refinement", "Todo"),
   ("Status::Ready for Release", "Done"),
   ("Status::Approved Internally", "Review"),
   ("Status::In progress", "In Progress"),
   ("Status::To-do", "Todo")]

/-- Embeds `mapStatusFromLabels` of the duplicate client module
`src/unnamed/part_001` (lines 107-131): same scan, divergent table. -/
def mapStatusFromLabelsDup (labels : List String) : String :=
  labels.foldl (statusStep statusTableDup) "backlog"

/-- Priority table built in `mapPriority` of client.ts lines 137-141. -/
def priorityTable : List (String × Nat) :=
  [("Prio :: Web", 0), ("Prio :: 1", 2), ("Prio :: 2", 3), ("Prio :: 3", 4)]

/-- Decides whether a label contains the priority-marker substring
(`label.includes('Prio :: ')` in client.ts line 135). -/
def hasPrioMarker (label : String) : Bool :=
  strContains label "Prio :: "

/-- Embeds `mapPriority` (client.ts lines 134-144): the first label containing
"Prio :: " is looked up in the priority table; a missing label or an
unrecognized marker yields 0 (`|| 0`). -/
def mapPriority (labels : List String) : Nat :=
  match labels.find? hasPrioMarker with
  | none => 0
  | some l => (priorityTable.lookup l).getD 0

/-- Removable bookkeeping labels of `mapLabels` (client.ts lines 149-165). -/
def removableLabels : List String :=
  ["Prio :: Web",
   "Prio :: 1",
   "Prio :: 2",
   "Prio :: 3",
   "Status::On hold",
   "Status::Review",
   "Status::Estimate",
   "Status::Ready for Release",
   "Status::Approved Internally",
   "Status::In progress",
   "Status::To-do",
   "Env :: Fieldpiece",
   "Env :: My.Fieldpiece",
   "Env :: University",
   "Env :: Brandportal"]

/-- Embeds the removal loop of client.ts lines 167-172: for each removable
label in table order, `indexOf` finds its first occurrence and `splice`
removes that single occurrence. -/
def stripRemovable (labels : List String) : List String :=
  removableLabels.foldl (fun ls r => ls.erase r) labels

/-- Embeds the rename table and loop of client.ts lines 174-188: a recognized
label is replaced by its destination name, any other label is untouched. -/
def renameLabel (label : String) : String :=
  if label = "Type::Bug" then "Bug"
  else if label = "Type::Epic" then "Epic"
  else if label = "Type::Feature" then "Feature"
  else if label = "Type::Optimization" then "Optimization"
  else if label = "Status::Refinement" then "Refinement"
  else if label = "Frontend" then "Front-end"
  else if label = "Backend" then "Back-end"
  else label

/-- Embeds `mapLabels` (client.ts lines 147-191): first the removal loop,
then the rename loop over the remaining labels. -/
def mapLabels (labels : List String) : List String :=
  (stripRemovable labels).map renameLabel

/-- Embeds `mapGitlabIdToEmail` (client.ts lines 193-204): the hard-coded
user directory; an id outside it yields `undefined`, modelled as `none`. -/
def mapGitlabIdToEmail (id : Nat) : Option String :=
  List.lookup id
    [(2, "floris@niice.nl"), (20, "jorn@niice.nl"), (49, "ken@niice.nl"),
     (57, "mik@niice.nl"), (84, "tim@niice.nl")]

/-- Label record `{name}` stored in the label dictionary. -/
structure LabelRecord where
  name : String
deriving DecidableEq

/-- User record `{name, avatarUrl}` stored in the user dictionary. -/
structure UserRecord where
  name : String
  avatarUrl : String
deriving DecidableEq

/-- Issue entry pushed onto `importData.issues` by `GitLabImporter.import`
(part_000 lines 129-140). -/
structure ImportedIssue where
  title : String
  description : String
  url : String
  labels : List String
  createdAt : String
  dueDate : Option String
  priority : Nat
  status : String
  comments : List Comment
  assigneeId : Option String
deriving DecidableEq

/-- The `ImportResult` record: issues in order, plus the label and user
dictionaries (JS objects modelled as insertion-ordered association lists). -/
structure ImportResult where
  issues : List ImportedIssue
  labels : List (String × LabelRecord)
  users : List (Nat × UserRecord)
deriving DecidableEq

/-- JS object property assignment `dict[k] = v`: overwrite the value of an
existing key in place, or append a new key at the end. -/
def dictInsert {κ ν : Type} [DecidableEq κ] (k : κ) (v : ν) :
    List (κ × ν) → List (κ × ν)
  | [] => [(k, v)]
  | (k2, v2) :: rest =>
    if k = k2 then (k, v) :: rest else (k2, v2) :: dictInsert k v rest

/-- Embeds the issue construction of part_000 lines 129-140, including the
backlink appended to the description. -/
def buildImportedIssue (issue : FetchedIssue) : ImportedIssue :=
  { title := issue.title
    description :=
      issue.description ++ ("\n\n[View original issue in Gitlab](" ++ issue.web_url ++ ")")
    url := issue.web_url
    labels := mapLabels issue.labels
    createdAt := issue.created_at
    dueDate := issue.due_date
    priority := mapPriority issue.labels
    status := mapStatusFromLabels issue.labels
    comments := issue.comments
    assigneeId :=
      match issue.assignees with
      | [] => none
      | a :: _ => mapGitlabIdToEmail a.id }

/-- One iteration of the aggregation loop of part_000 lines 128-154: push the
built issue, merge every assignee into the user dictionary, merge every
normalized label into the label dictionary. -/
def aggregateStep (acc : ImportResult) (issue : FetchedIssue) : ImportResult :=
  { issues := acc.issues ++ [buildImportedIssue issue]
    labels :=
      (mapLabels issue.labels).foldl
        (fun ls label => dictInsert label { name := label } ls) acc.labels
    users :=
      issue.assignees.foldl
        (fun us a => dictInsert a.id { name := a.name, avatarUrl := a.avatar_url } us)
        acc.users }

/-- Embeds the aggregation loop of `GitLabImporter.import` over the fetched
issues, starting from the empty `ImportResult`. -/
def importAggregate (issues : List FetchedIssue) : ImportResult :=
  issues.foldl aggregateStep { issues := [], labels := [], users := [] }

/-- Errors of the whole run: a resolution failure or a fetch failure. -/
inductive ImportError where
  | resolve (e : ResolveError)
  | fetch (e : FetchError)
deriving DecidableEq

/-- Embeds `GitLabImporter.import` (part_000 lines 117-157): resolve the
project, fetch issues and comments, aggregate; the first error aborts the run
with no issues returned. -/
def runImport (projectName : String) (searchResp : HttpResp (List GitlabProject))
    (issuesResp : HttpResp (List RawIssue)) (notesResp : Nat → HttpResp (List RawNote)) :
    Except ImportError ImportResult :=
  match getGitlabProjectId searchResp projectName with
  | Except.error e => Except.error (ImportError.resolve e)
  | Except.ok _ =>
    match getGitlabIssuesFromRepo projectName issuesResp notesResp with
    | Except.error e => Except.error (ImportError.fetch e)
    | Except.ok issues => Except.ok (importAggregate issues)

/-- Sample note without an upload path, used to instantiate theorems. -/
def sampleNotePlain : RawNote :=
  { id := 10, system := false, body := "plain text", attachment := ""
    author := { state := "active", id := 20, web_url := "", name := "j", avatar_url := "", username := "j" }
    created_at := "2022-01-01", updated_at := "2022-01-02" }

/-- Sample note whose body contains an upload-relative path. -/
def sampleNoteUpload : RawNote :=
  { id := 11, system := false, body := "see /uploads/img.png", attachment := ""
    author := { state := "active", id := 20, web_url := "", name := "j", avatar_url := "", username := "j" }
    created_at := "2022-01-01", updated_at := "2022-01-02" }

/-- Sample system note (automated activity entry). -/
def sampleNoteSystem : RawNote :=
  { id := 12, system := true, body := "changed the status", attachment := ""
    author := { state := "active", id := 2, web_url := "", name := "f", avatar_url := "", username := "f" }
    created_at := "2022-01-01", updated_at := "2022-01-02" }

/-- Sample raw issue, used to instantiate the fetch pipeline theorems. -/
def sampleRawIssue : RawIssue :=
  { id := 1, iid := 2, title := "t", description := "d", labels := []
    assignees := [], due_date := none, severity := "unknown"
    web_url := "https://git.niice.nl/g/p/-/issues/2", created_at := "2022-01-01"
    state := "opened" }

/-- Sample fetched issue whose source description is empty. -/
def sampleIssueEmptyDesc : FetchedIssue :=
  { id := 1, iid := 2, title := "t", description := "", labels := []
    assignees := [], due_date := none, severity := "unknown"
    web_url := "https://git.niice.nl/g/p/-/issues/2", created_at := "2022-01-01"
    state := "opened", comments := [] }

end GitlabImport

namespace GitlabImport

/-- A scan over labels none of which is in the table leaves the running
status unchanged. -/
theorem statusFold_const (table : List (String × String)) (ys : List String) (s : String) :
    (∀ y ∈ ys, table.lookup y = none) → List.foldl (statusStep table) s ys = s := by
  induction ys generalizing s with
  | nil => intro _; rfl
  | cons y ys ih =>
    intro hys
    have hy := hys y (List.mem_cons_self y ys)
    simp only [List.foldl_cons, statusStep, hy]
    exact ih s (fun z hz => hys z (List.mem_cons_of_mem y hz))

/-- C1: for every label list containing status markers, `mapStatusFromLabels`
returns the mapped status of the last matching label in array order: writing
the list as `xs ++ l :: ys` with `l` a table key and no table key in `ys`,
the result is the status mapped to `l`, whatever markers `xs` holds. -/
theorem mapStatusFromLabels_last_marker_wins (xs ys : List String) (l v : String)
    (hl : statusTable.lookup l = some v) (hys : ∀ y ∈ ys, statusTable.lookup y = none) :
    mapStatusFromLabels (xs ++ l :: ys) = v := by
  unfold mapStatusFromLabels
  rw [List.foldl_append, List.foldl_cons]
  have hstep : statusStep statusTable (List.foldl (statusStep statusTable) "backlog" xs) l = v := by
    simp only [statusStep, hl]
  rw [hstep]
  exact statusFold_const statusTable ys v hys

/-- Witness for C1: on `["Status::To-do", "Status::In progress"]` the second
(last) marker wins, yielding "In Progress" and not "Todo". -/
theorem mapStatusFromLabels_last_marker_wins_witness :
    mapStatusFromLabels ["Status::To-do", "Status::In progress"] = "In Progress" :=
  mapStatusFromLabels_last_marker_wins ["Status::To-do"] [] "Status::In progress"
    "In Progress" (by decide) (by decide)

/-- C4: the two observed versions of the status-derivation function disagree:
on `["Status::On hold"]` and on `["Status::Approved Internally"]` the client.ts
version and the duplicate module version return different statuses. -/
theorem mapStatusFromLabels_versions_diverge :
    mapStatusFromLabels ["Status::On hold"] ≠ mapStatusFromLabelsDup ["Status::On hold"] ∧
    mapStatusFromLabels ["Status::Approved Internally"] ≠
      mapStatusFromLabelsDup ["Status::Approved Internally"] :=
  ⟨by decide, by decide⟩

/-- C10: for every label list containing no key of the status table,
`mapStatusFromLabels` returns the exact lowercase string "backlog", which is
not a member of the capitalized destination-status set that marker labels map
to; a marker label such as "Status::On hold" produces the capitalized
"Backlog" instead. -/
theorem mapStatusFromLabels_default_lowercase (labels : List String)
    (h : ∀ l ∈ labels, statusTable.lookup l = none) :
    mapStatusFromLabels labels = "backlog" ∧
    "backlog" ∉ (["Backlog", "Estimate", "Review", "In Progress", "Done", "Todo"] : List String) ∧
    mapStatusFromLabels ["Status::On hold"] = "Backlog" :=
  ⟨statusFold_const statusTable labels "backlog" h, by decide, by decide⟩

/-- Witness for C10 at the marker-free list `["Type::Bug"]`. -/
theorem mapStatusFromLabels_default_lowercase_witness :
    mapStatusFromLabels ["Type::Bug"] = "backlog" ∧
    "backlog" ∉ (["Backlog", "Estimate", "Review", "In Progress", "Done", "Todo"] : List String) ∧
    mapStatusFromLabels ["Status::On hold"] = "Backlog" :=
  mapStatusFromLabels_default_lowercase ["Type::Bug"] (by decide)

/-- C5: priority derivation looks at the first label containing "Prio :: ":
with no such label the result is 0, and when that label is found the result is
the fixed rank of the recognized markers (0, 2, 3, 4), with every unrecognized
marker yielding 0 as if absent. -/
theorem mapPriority_correct (labels : List String) :
    ((∀ l ∈ labels, hasPrioMarker l = false) → mapPriority labels = 0) ∧
    (∀ m, labels.find? hasPrioMarker = some m →
      mapPriority labels =
        if m = "Prio :: Web" then 0
        else if m = "Prio :: 1" then 2
        else if m = "Prio :: 2" then 3
        else if m = "Prio :: 3" then 4
        else 0) := by
  constructor
  · intro h
    have hnone : labels.find? hasPrioMarker = none :=
      List.find?_eq_none.mpr (fun x hx => by simp [h x hx])
    simp [mapPriority, hnone]
  · intro m hm
    simp only [mapPriority, hm]
    by_cases h1 : m = "Prio :: Web"
    · subst h1; decide
    by_cases h2 : m = "Prio :: 1"
    · subst h2; decide
    by_cases h3 : m = "Prio :: 2"
    · subst h3; decide
    by_cases h4 : m = "Prio :: 3"
    · subst h4; decide
    rw [if_neg h1, if_neg h2, if_neg h3, if_neg h4]
    have hnone : priorityTable.lookup m = none := by
      have b1 : (m == "Prio :: Web") = false := beq_eq_false_iff_ne.mpr h1
      have b2 : (m == "Prio :: 1") = false := beq_eq_false_iff_ne.mpr h2
      have b3 : (m == "Prio :: 2") = false := beq_eq_false_iff_ne.mpr h3
      have b4 : (m == "Prio :: 3") = false := beq_eq_false_iff_ne.mpr h4
      simp [priorityTable, List.lookup, b1, b2, b3, b4]
    simp [hnone]

/-- Witness for C5: a list without a priority marker yields 0, and a list
whose first marker is "Prio :: 2" yields rank 3. -/
theorem mapPriority_correct_witness :
    mapPriority ["Type::Bug"] = 0 ∧ mapPriority ["foo", "Prio :: 2"] = 3 :=
  ⟨(mapPriority_correct ["Type::Bug"]).1 (by decide),
   ((mapPriority_correct ["foo", "Prio :: 2"]).2 "Prio :: 2" (by decide)).trans (by decide)⟩

/-- C3: with search results `[{id := 1, path := "bar-foo"}]` and requested
name "foo" the resolver does not resolve to the substring match; yet the
error it fails with is the wrapped TypeError thrown by destructuring
`undefined`, not the `Project foo not found` error, which is unreachable in
the no-match case. With an exact match present (`path = "foo"`), that entry
is selected. -/
theorem getGitlabProjectId_nonmatch_behavior :
    getGitlabProjectId ⟨200, [⟨1, "bar-foo"⟩]⟩ "foo" = Except.error ResolveError.wrappedTypeError ∧
    getGitlabProjectId ⟨200, [⟨7, "foo"⟩, ⟨1, "bar-foo"⟩]⟩ "foo" = Except.ok 7 ∧
    getGitlabProjectId ⟨200, [⟨1, "bar-foo"⟩]⟩ "foo" ≠
      Except.error (ResolveError.wrappedProjectNotFound "foo") :=
  ⟨rfl, rfl, fun h => by cases Except.error.inj h⟩

end GitlabImport

namespace GitlabImport

/-- Erasing elements never increases the number of occurrences of a label. -/
theorem count_foldl_erase_le (R : List String) :
    ∀ (l : List String) (a : String),
      ((R.foldl (fun ls r => ls.erase r) l).count a) ≤ l.count a := by
  induction R with
  | nil => intro l a; exact le_refl _
  | cons r R ih =>
    intro l a
    simp only [List.foldl_cons]
    exact le_trans (ih (l.erase r) a) ((List.erase_sublist r l).count_le a)

/-- A label of the removal table that occurs at most once in the input does
not survive the removal loop. -/
theorem count_foldl_erase_zero (R : List String) (a : String) :
    a ∈ R → ∀ l : List String, l.count a ≤ 1 →
      (R.foldl (fun ls r => ls.erase r) l).count a = 0 := by
  induction R with
  | nil => intro ha; cases ha
  | cons r R ih =>
    intro ha l hcount
    simp only [List.foldl_cons]
    rcases List.mem_cons.mp ha with h | h
    · subst h
      have h1 := count_foldl_erase_le R (l.erase a) a
      have h2 : (l.erase a).count a = l.count a - 1 := List.count_erase_self a l
      omega
    · exact ih h (l.erase r) (le_trans ((List.erase_sublist r l).count_le a) hcount)

/-- The removal loop leaves a list untouched when the list holds no removable
label. -/
theorem foldl_erase_of_disjoint (R : List String) :
    ∀ l : List String, (∀ r ∈ R, r ∉ l) → R.foldl (fun ls r => ls.erase r) l = l := by
  induction R with
  | nil => intro l _; rfl
  | cons r R ih =>
    intro l h
    simp only [List.foldl_cons]
    rw [List.erase_of_not_mem (h r (List.mem_cons_self r R))]
    exact ih l (fun x hx => h x (List.mem_cons_of_mem r hx))

/-- The rename loop either leaves a label unchanged or produces one of its
seven destination names. -/
theorem renameLabel_cases (x : String) :
    renameLabel x = x ∨
    renameLabel x ∈
      (["Bug", "Epic", "Feature", "Optimization", "Refinement", "Front-end", "Back-end"] :
        List String) := by
  unfold renameLabel
  split_ifs <;> first | (left; rfl) | (right; decide)

/-- The rename loop fixes each of its seven destination names. -/
theorem renameLabel_fixes_outputs (y : String)
    (hy : y ∈
      (["Bug", "Epic", "Feature", "Optimization", "Refinement", "Front-end", "Back-end"] :
        List String)) :
    renameLabel y = y := by
  fin_cases hy <;> decide

/-- The rename loop is idempotent on single labels. -/
theorem renameLabel_idem (x : String) : renameLabel (renameLabel x) = renameLabel x := by
  rcases renameLabel_cases x with h | h
  · rw [h]; exact h
  · exact renameLabel_fixes_outputs _ h

/-- Renaming a non-removable label never yields a removable label. -/
theorem renameLabel_not_removable (x : String) (hx : x ∉ removableLabels) :
    renameLabel x ∉ removableLabels := by
  rcases renameLabel_cases x with h | h
  · rw [h]; exact hx
  · simp only [List.mem_cons, List.not_mem_nil, or_false] at h
    rcases h with h | h | h | h | h | h | h <;> rw [h] <;> decide

/-- When every removable label occurs at most once in the input, the output of
`mapLabels` holds no removable label. -/
theorem mapLabels_no_removable (labels : List String)
    (h : ∀ r ∈ removableLabels, labels.count r ≤ 1) :
    ∀ y ∈ mapLabels labels, y ∉ removableLabels := by
  intro y hy
  unfold mapLabels at hy
  rcases List.mem_map.mp hy with ⟨x, hx, rfl⟩
  apply renameLabel_not_removable
  intro hxr
  have h0 := count_foldl_erase_zero removableLabels x hxr labels (h x hxr)
  have hx2 : x ∈ removableLabels.foldl (fun ls r => ls.erase r) labels := hx
  exact absurd hx2 (List.count_eq_zero.mp h0)

/-- Corrected C2 (counterexample: `mapLabels_not_idempotent_cex`): label
normalization is idempotent on every list in which each removable label occurs
at most once; duplicated removable labels break idempotence because the
`splice` removal deletes one occurrence per pass. -/
theorem mapLabels_idempotent_of_count_le_one (labels : List String)
    (h : ∀ r ∈ removableLabels, labels.count r ≤ 1) :
    mapLabels (mapLabels labels) = mapLabels labels := by
  have hnr := mapLabels_no_removable labels h
  have hstrip : stripRemovable (mapLabels labels) = mapLabels labels := by
    unfold stripRemovable
    exact foldl_erase_of_disjoint removableLabels (mapLabels labels)
      (fun r hr hmem => hnr r hmem hr)
  show (stripRemovable (mapLabels labels)).map renameLabel = mapLabels labels
  rw [hstrip]
  have hfix : ∀ y ∈ mapLabels labels, renameLabel y = y := by
    intro y hy
    unfold mapLabels at hy
    rcases List.mem_map.mp hy with ⟨x, _, rfl⟩
    exact renameLabel_idem x
  calc (mapLabels labels).map renameLabel
      = (mapLabels labels).map id := List.map_congr_left hfix
    _ = mapLabels labels := List.map_id (mapLabels labels)

/-- Counterexample to C2 as stated: on `["Prio :: 1", "Prio :: 1"]` one pass
of `mapLabels` removes a single occurrence and a second pass removes the
other, so applying `mapLabels` twice differs from applying it once. -/
theorem mapLabels_not_idempotent_cex :
    mapLabels (mapLabels ["Prio :: 1", "Prio :: 1"]) ≠ mapLabels ["Prio :: 1", "Prio :: 1"] := by
  decide

/-- Witness for the corrected C2 at the scenario list of the spec. -/
theorem mapLabels_idempotent_witness :
    mapLabels (mapLabels ["Type::Bug", "Status::To-do", "Prio :: 2"]) =
      mapLabels ["Type::Bug", "Status::To-do", "Prio :: 2"] :=
  mapLabels_idempotent_of_count_le_one ["Type::Bug", "Status::To-do", "Prio :: 2"] (by decide)

end GitlabImport

namespace GitlabImport

/-- A list with a prefix decomposes as that prefix followed by the rest. -/
theorem eq_append_drop_of_isPrefixOf (pat l : List Char) (h : pat.isPrefixOf l = true) :
    l = pat ++ l.drop pat.length := by
  have h2 : pat <+: l := by rwa [← List.isPrefixOf_iff_prefix]
  obtain ⟨t, ht⟩ := h2
  subst ht
  simp

/-- Character-list specification of the single-occurrence replace: a list not
containing the pattern is returned unchanged, and a list containing it is
returned with one occurrence of the pattern replaced by the replacement. -/
theorem replaceFirstList_spec (pat rep : List Char) (s : List Char) :
    (containsList pat s = false → replaceFirstList pat rep s = s) ∧
    (containsList pat s = true →
      ∃ pre post, s = pre ++ pat ++ post ∧
        replaceFirstList pat rep s = pre ++ rep ++ post) := by
  induction s with
  | nil =>
    constructor
    · intro h
      unfold containsList at h
      unfold replaceFirstList
      rw [if_neg]
      intro hif
      rw [hif] at h
      cases h
    · intro h
      unfold containsList at h
      have hpat : pat = [] := by
        cases pat with
        | nil => rfl
        | cons c cs => simp [List.isPrefixOf] at h
      subst hpat
      exact ⟨[], [], by simp, by simp [replaceFirstList]⟩
  | cons c rest ih =>
    constructor
    · intro h
      unfold containsList at h
      rw [Bool.or_eq_false_iff] at h
      unfold replaceFirstList
      rw [if_neg (by rw [h.1]; intro hf; cases hf)]
      rw [ih.1 h.2]
    · intro h
      unfold replaceFirstList
      by_cases hp : pat.isPrefixOf (c :: rest) = true
      · rw [if_pos hp]
        refine ⟨[], (c :: rest).drop pat.length, ?_, by simp⟩
        simpa using eq_append_drop_of_isPrefixOf pat (c :: rest) hp
      · rw [if_neg hp]
        have h2 : containsList pat rest = true := by
          unfold containsList at h
          rcases Bool.or_eq_true_iff.mp h with h3 | h3
          · exact absurd h3 hp
          · exact h3
        rcases (ih.2 h2) with ⟨pre, post, hs, hr⟩
        exact ⟨c :: pre, post, by simp [hs], by simp [hr]⟩

/-- C6: a non-system note whose body contains an upload-relative path is
imported with that path rewritten to the absolute project-scoped URL, and a
body without such a path is imported unchanged. -/
theorem comment_body_upload_rewrite (projectName : String) (note : RawNote) :
    (strContains note.body "/uploads/" = false →
      (mkComment projectName note).body = note.body) ∧
    (strContains note.body "/uploads/" = true →
      ∃ pre post : String,
        note.body = pre ++ "/uploads/" ++ post ∧
        (mkComment projectName note).body =
          pre ++ ("https://git.niice.nl/niicedigitalmarketing/" ++ projectName ++ "/uploads/")
            ++ post) := by
  have hspec := replaceFirstList_spec "/uploads/".data
    (uploadsBase ++ projectName ++ "/uploads/").data note.body.data
  constructor
  · intro h
    have h1 := hspec.1 h
    show String.mk (replaceFirstList "/uploads/".data
      (uploadsBase ++ projectName ++ "/uploads/").data note.body.data) = note.body
    rw [h1]
  · intro h
    rcases hspec.2 h with ⟨pre, post, hs, hr⟩
    refine ⟨String.mk pre, String.mk post, ?_, ?_⟩
    · exact congrArg String.mk hs
    · show String.mk (replaceFirstList "/uploads/".data
        (uploadsBase ++ projectName ++ "/uploads/").data note.body.data) =
          String.mk pre ++ ("https://git.niice.nl/niicedigitalmarketing/" ++ projectName
            ++ "/uploads/") ++ String.mk post
      rw [hr]
      rfl

/-- Witness for C6: a plain body is unchanged, a body holding
`/uploads/img.png` is rewritten to the project-scoped absolute URL. -/
theorem comment_body_upload_rewrite_witness :
    ((mkComment "proj" sampleNotePlain).body = sampleNotePlain.body) ∧
    (∃ pre post : String,
      sampleNoteUpload.body = pre ++ "/uploads/" ++ post ∧
      (mkComment "proj" sampleNoteUpload).body =
        pre ++ ("https://git.niice.nl/niicedigitalmarketing/" ++ "proj" ++ "/uploads/")
          ++ post) :=
  ⟨(comment_body_upload_rewrite "proj" sampleNotePlain).1 (by decide),
   (comment_body_upload_rewrite "proj" sampleNoteUpload).2 (by decide)⟩

end GitlabImport

namespace GitlabImport

/-- Any non-200 status makes the request executor throw. -/
theorem gitlabClient_error_of_ne_200 {α : Type} (status : Nat) (body : α)
    (h : status ≠ 200) : ∃ e, gitlabClient status body = Except.error e := by
  unfold gitlabClient
  by_cases h1 : status = 401
  · rw [if_pos h1]; exact ⟨ClientError.invalidApiKey, rfl⟩
  · rw [if_neg h1]
    by_cases h2 : status = 404
    · rw [if_pos h2]; exact ⟨ClientError.notFound, rfl⟩
    · rw [if_neg h2, if_pos h]; exact ⟨ClientError.unexpectedStatus status, rfl⟩

/-- A successful request executor call returns exactly the decoded body. -/
theorem gitlabClient_ok_inv {α : Type} (status : Nat) (body b : α)
    (h : gitlabClient status body = Except.ok b) : b = body := by
  unfold gitlabClient at h
  by_cases h1 : status = 401
  · rw [if_pos h1] at h; cases h
  · rw [if_neg h1] at h
    by_cases h2 : status = 404
    · rw [if_pos h2] at h; cases h
    · rw [if_neg h2] at h
      by_cases h3 : status ≠ 200
      · rw [if_pos h3] at h; cases h
      · rw [if_neg h3] at h
        injection h with h4
        exact h4.symm

/-- The sequential comment fetch aborts whenever the notes response of any
listed issue has a non-200 status. -/
theorem fetchComments_error_of_mem (projectName : String)
    (notesResp : Nat → HttpResp (List RawNote)) :
    ∀ issues : List RawIssue,
      (∃ i ∈ issues, (notesResp i.iid).status ≠ 200) →
      ∃ e, fetchComments projectName notesResp issues = Except.error e := by
  intro issues
  induction issues with
  | nil => rintro ⟨i, hi, _⟩; cases hi
  | cons a rest ih =>
    rintro ⟨i, hi, hstat⟩
    cases hg : gitlabClient (notesResp a.iid).status (notesResp a.iid).body with
    | error e =>
      refine ⟨FetchError.failedToGetIssues e, ?_⟩
      unfold fetchComments
      rw [hg]
    | ok notes =>
      rcases List.mem_cons.mp hi with h | h
      · subst h
        rcases gitlabClient_error_of_ne_200 (notesResp i.iid).status (notesResp i.iid).body
          hstat with ⟨e, he⟩
        rw [hg] at he
        cases he
      · rcases ih ⟨i, h, hstat⟩ with ⟨e, he⟩
        refine ⟨e, ?_⟩
        unfold fetchComments
        rw [hg, he]

/-- Inverts a successful cons step of the sequential comment fetch. -/
theorem fetchComments_cons_inv (projectName : String)
    (notesResp : Nat → HttpResp (List RawNote)) (a : RawIssue) (rest : List RawIssue)
    (issues : List FetchedIssue)
    (h : fetchComments projectName notesResp (a :: rest) = Except.ok issues) :
    ∃ notes others,
      gitlabClient (notesResp a.iid).status (notesResp a.iid).body = Except.ok notes ∧
      fetchComments projectName notesResp rest = Except.ok others ∧
      issues =
        withComments a ((notes.filter (fun n => !n.system)).map (mkComment projectName))
          :: others := by
  unfold fetchComments at h
  cases hg : gitlabClient (notesResp a.iid).status (notesResp a.iid).body with
  | error e =>
    rw [hg] at h
    cases h
  | ok notes =>
    rw [hg] at h
    cases hrest : fetchComments projectName notesResp rest with
    | error e =>
      rw [hrest] at h
      cases h
    | ok others =>
      rw [hrest] at h
      injection h with h2
      exact ⟨notes, others, rfl, rfl, h2.symm⟩

/-- Every issue of a successful comment fetch carries only comments built from
non-system notes of its own notes response. -/
theorem fetchComments_comments_from_notes (projectName : String)
    (notesResp : Nat → HttpResp (List RawNote)) :
    ∀ (raws : List RawIssue) (issues : List FetchedIssue),
      fetchComments projectName notesResp raws = Except.ok issues →
      ∀ issue ∈ issues, ∀ c ∈ issue.comments,
        ∃ n ∈ (notesResp issue.iid).body, n.system = false ∧ c = mkComment projectName n := by
  intro raws
  induction raws with
  | nil =>
    intro issues h
    unfold fetchComments at h
    injection h with h2
    subst h2
    intro issue hissue
    cases hissue
  | cons a rest ih =>
    intro issues h issue hissue c hc
    rcases fetchComments_cons_inv projectName notesResp a rest issues h with
      ⟨notes, others, hg, hrest, heq⟩
    subst heq
    rcases List.mem_cons.mp hissue with h2 | h2
    · subst h2
      have hnotes : notes = (notesResp a.iid).body :=
        gitlabClient_ok_inv (notesResp a.iid).status (notesResp a.iid).body notes hg
    
      rcases List.mem_map.mp hc with ⟨n, hn, rfl⟩
      have hfil := List.mem_filter.mp hn
      refine ⟨n, ?_, ?_, rfl⟩
      · show n ∈ (notesResp a.iid).body
        rw [← hnotes]
        exact hfil.1
      · simpa using hfil.2
    · exact ih others hrest issue h2 c hc

/-- C8: in every successful fetch, no system note appears among an issue's
imported comments: every imported comment originates from a note of that
issue's notes response whose system flag is false. -/
theorem imported_comments_not_system (projectName : String)
    (issuesResp : HttpResp (List RawIssue)) (notesResp : Nat → HttpResp (List RawNote))
    (issues : List FetchedIssue)
    (h : getGitlabIssuesFromRepo projectName issuesResp notesResp = Except.ok issues) :
    ∀ issue ∈ issues, ∀ c ∈ issue.comments,
      ∃ n ∈ (notesResp issue.iid).body, n.system = false ∧ c = mkComment projectName n := by
  unfold getGitlabIssuesFromRepo at h
  cases hg : gitlabClient issuesResp.status issuesResp.body with
  | error e =>
    rw [hg] at h
    cases h
  | ok issueList =>
    rw [hg] at h
    exact fetchComments_comments_from_notes projectName notesResp issueList issues h

end GitlabImport

namespace GitlabImport

/-- C7: the request executor classifies every response by status code (401
authentication error, 404 not-found, any other non-200 an unexpected-status
error carrying the code, 200 the decoded body), and a 401 from any of the
three endpoints makes the whole import run return an error, never issues. -/
theorem gitlabClient_classifies_and_401_aborts {α : Type} (status : Nat) (body : α)
    (projectName : String) (searchResp : HttpResp (List GitlabProject))
    (issuesResp : HttpResp (List RawIssue)) (notesResp : Nat → HttpResp (List RawNote)) :
    (status = 401 → gitlabClient status body = Except.error ClientError.invalidApiKey) ∧
    (status = 404 → gitlabClient status body = Except.error ClientError.notFound) ∧
    (status ≠ 401 → status ≠ 404 → status ≠ 200 →
      gitlabClient status body = Except.error (ClientError.unexpectedStatus status)) ∧
    (status = 200 → gitlabClient status body = Except.ok body) ∧
    ((searchResp.status = 401 ∨ issuesResp.status = 401 ∨
        ∃ i ∈ issuesResp.body, (notesResp i.iid).status = 401) →
      ∃ e, runImport projectName searchResp issuesResp notesResp = Except.error e) := by
  refine ⟨?_, ?_, ?_, ?_, ?_⟩
  · intro h; subst h; rfl
  · intro h; subst h; rfl
  · intro h1 h2 h3
    unfold gitlabClient
    rw [if_neg h1, if_neg h2, if_pos h3]
  · intro h; subst h; rfl
  · rintro (h | h | ⟨i, hi, hstat⟩)
    · have hga : getGitlabProjectId searchResp projectName =
          Except.error (ResolveError.wrappedClient ClientError.invalidApiKey) := by
        unfold getGitlabProjectId
        have hcl : gitlabClient searchResp.status searchResp.body =
            Except.error ClientError.invalidApiKey := by
          unfold gitlabClient; rw [if_pos h]
        rw [hcl]
      exact ⟨ImportError.resolve (ResolveError.wrappedClient ClientError.invalidApiKey),
        by unfold runImport; rw [hga]⟩
    · cases hres : getGitlabProjectId searchResp projectName with
      | error e => exact ⟨ImportError.resolve e, by unfold runImport; rw [hres]⟩
      | ok pid =>
        have hfetch : getGitlabIssuesFromRepo projectName issuesResp notesResp =
            Except.error (FetchError.failedToGetIssues ClientError.invalidApiKey) := by
          unfold getGitlabIssuesFromRepo
          have hcl : gitlabClient issuesResp.status issuesResp.body =
              Except.error ClientError.invalidApiKey := by
            unfold gitlabClient; rw [if_pos h]
          rw [hcl]
        exact ⟨ImportError.fetch (FetchError.failedToGetIssues ClientError.invalidApiKey),
          by unfold runImport; rw [hres, hfetch]⟩
    · cases hres : getGitlabProjectId searchResp projectName with
      | error e => exact ⟨ImportError.resolve e, by unfold runImport; rw [hres]⟩
      | ok pid =>
        cases hfetch : getGitlabIssuesFromRepo projectName issuesResp notesResp with
        | error e => exact ⟨ImportError.fetch e, by unfold runImport; rw [hres, hfetch]⟩
        | ok issues =>
          exfalso
          unfold getGitlabIssuesFromRepo at hfetch
          cases hg : gitlabClient issuesResp.status issuesResp.body with
          | error e => rw [hg] at hfetch; cases hfetch
          | ok issueList =>
            rw [hg] at hfetch
            have hfetch2 : fetchComments projectName notesResp issueList =
                Except.ok issues := hfetch
            have hbody : issueList = issuesResp.body :=
              gitlabClient_ok_inv issuesResp.status issuesResp.body issueList hg
            rcases fetchComments_error_of_mem projectName notesResp issueList
              ⟨i, by rw [hbody]; exact hi, by rw [hstat]; decide⟩ with ⟨e, he⟩
            rw [he] at hfetch2
            cases hfetch2

/-- Witness for C7 at concrete statuses 401, 404, 500 and 200, and a run whose
project-search response is a 401. -/
theorem gitlabClient_classifies_witness :
    gitlabClient 401 (0 : Nat) = Except.error ClientError.invalidApiKey ∧
    gitlabClient 404 (0 : Nat) = Except.error ClientError.notFound ∧
    gitlabClient 500 (0 : Nat) = Except.error (ClientError.unexpectedStatus 500) ∧
    gitlabClient 200 (0 : Nat) = Except.ok 0 ∧
    (∃ e, runImport "p" ⟨401, []⟩ ⟨200, []⟩ (fun _ => ⟨200, []⟩) = Except.error e) :=
  ⟨(gitlabClient_classifies_and_401_aborts 401 0 "p" ⟨401, []⟩ ⟨200, []⟩
      (fun _ => ⟨200, []⟩)).1 rfl,
   (gitlabClient_classifies_and_401_aborts 404 0 "p" ⟨401, []⟩ ⟨200, []⟩
      (fun _ => ⟨200, []⟩)).2.1 rfl,
   (gitlabClient_classifies_and_401_aborts 500 0 "p" ⟨401, []⟩ ⟨200, []⟩
      (fun _ => ⟨200, []⟩)).2.2.1 (by decide) (by decide) (by decide),
   (gitlabClient_classifies_and_401_aborts 200 0 "p" ⟨401, []⟩ ⟨200, []⟩
      (fun _ => ⟨200, []⟩)).2.2.2.1 rfl,
   (gitlabClient_classifies_and_401_aborts 200 0 "p" ⟨401, []⟩ ⟨200, []⟩
      (fun _ => ⟨200, []⟩)).2.2.2.2 (Or.inl rfl)⟩

/-- Fold invariant of the aggregation loop: every aggregated issue either was
already in the accumulator or is the built image of a source issue. -/
theorem foldl_aggregateStep_mem (issues : List FetchedIssue) :
    ∀ (acc : ImportResult) (imp : ImportedIssue),
      imp ∈ (issues.foldl aggregateStep acc).issues →
      imp ∈ acc.issues ∨ ∃ src ∈ issues, imp = buildImportedIssue src := by
  induction issues with
  | nil => intro acc imp h; exact Or.inl h
  | cons a rest ih =>
    intro acc imp h
    rw [List.foldl_cons] at h
    rcases ih (aggregateStep acc a) imp h with hacc | ⟨src, hsrc, heq⟩
    · have hacc2 : imp ∈ acc.issues ++ [buildImportedIssue a] := hacc
      rcases List.mem_append.mp hacc2 with h1 | h2
      · exact Or.inl h1
      · exact Or.inr ⟨a, List.mem_cons_self a rest, List.eq_of_mem_singleton h2⟩
    · exact Or.inr ⟨src, List.mem_cons_of_mem a hsrc, heq⟩

/-- C9: every issue built by the aggregator, in particular one whose source
description is empty, has as description the source description followed by
the backlink suffix containing the original issue URL. -/
theorem imported_description_has_backlink (issues : List FetchedIssue) (imp : ImportedIssue)
    (h : imp ∈ (importAggregate issues).issues) :
    ∃ src ∈ issues,
      imp.description =
        src.description ++ ("\n\n[View original issue in Gitlab](" ++ src.web_url ++ ")") := by
  unfold importAggregate at h
  rcases foldl_aggregateStep_mem issues { issues := [], labels := [], users := [] } imp h with
    habs | ⟨src, hsrc, heq⟩
  · cases habs
  · exact ⟨src, hsrc, by rw [heq]; rfl⟩

/-- Witness for C9 at an issue with empty source description. -/
theorem imported_description_has_backlink_witness :
    ∃ src ∈ [sampleIssueEmptyDesc],
      (buildImportedIssue sampleIssueEmptyDesc).description =
        src.description ++ ("\n\n[View original issue in Gitlab](" ++ src.web_url ++ ")") :=
  imported_description_has_backlink [sampleIssueEmptyDesc]
    (buildImportedIssue sampleIssueEmptyDesc) (by decide)

end GitlabImport

namespace GitlabImport

/-- Witness for C8: a fetch whose notes response holds a system note and a
plain note imports only the comment built from the plain (non-system) note. -/
theorem imported_comments_not_system_witness :
    ∃ n ∈ [sampleNoteSystem, sampleNotePlain],
      n.system = false ∧ mkComment "p" sampleNotePlain = mkComment "p" n :=
  imported_comments_not_system "p" ⟨200, [sampleRawIssue]⟩
    (fun _ => ⟨200, [sampleNoteSystem, sampleNotePlain]⟩)
    [withComments sampleRawIssue [mkComment "p" sampleNotePlain]] rfl
    (withComments sampleRawIssue [mkComment "p" sampleNotePlain]) (by decide)
    (mkComment "p" sampleNotePlain) (by decide)

end GitlabImport
